import Mathlib

/-
Verification of the vmclarity scan-family orchestration engine and the
Azure scanner-resource lifecycle against their specification.

The definitions below are shallow embeddings of the Go source:
  - families.Manager / families.New / Manager.Run
    (shared/pkg/families, reproduced in the source tree)
  - the Azure provider (runtime_scan/pkg/provider/azure): tag filtering,
    instance-id parsing, RunTargetScan, RemoveTargetScan,
    ensureScannerVirtualMachine
  - the gorm database layer (backend/pkg/database/gorm): CreateScanResult,
    checkUniqueness, checkRevisionEtag, bumpRevision

External collaborators (the notifier, the per-family Run implementations,
the cloud SDK calls, the database driver) are modelled as oracle
environments: a record of functions giving the outcome of each external
call.  Concurrency in Manager.Run (the goroutine racing the family result
channel against context cancellation) is modelled by an oracle bit per
family saying which select branch wins.
-/

set_option maxHeartbeats 1000000

/-! ## Family manager data model (shared/pkg/families) -/

/-- The seven family variants, as in shared/pkg/families/types. -/
inductive FamilyType where
  | SBOM
  | Vulnerabilities
  | Secrets
  | Rootkits
  | Malware
  | Misconfiguration
  | Exploits
deriving DecidableEq, Repr

/-- Per-family configuration: only the Enabled flag matters to families.New
(the family-specific parameters are opaque to the manager). -/
structure FamilyConf where
  enabled : Bool
deriving DecidableEq, Repr

/-- The families.Config structure: one gated configuration per family. -/
structure Config where
  sbom : FamilyConf
  vulnerabilities : FamilyConf
  secrets : FamilyConf
  rootkits : FamilyConf
  malware : FamilyConf
  misconfiguration : FamilyConf
  exploits : FamilyConf
deriving DecidableEq, Repr

/-- The manager as built by families.New: a list of family instances.
Each instance is identified by its FamilyType tag; its Run behaviour is
supplied by the oracle environment at Run time (the family packages are
external collaborators of the manager). -/
structure Manager where
  families : List FamilyType
deriving DecidableEq, Repr

/-- families.New: appends each enabled family in the fixed source order
SBOM, Vulnerabilities, Secrets, Rootkits, Malware, Misconfiguration,
Exploits, each append gated by its own Enabled flag. -/
def Families.New (c : Config) : Manager :=
  { families :=
      (if c.sbom.enabled then [FamilyType.SBOM] else []) ++
      (if c.vulnerabilities.enabled then [FamilyType.Vulnerabilities] else []) ++
      (if c.secrets.enabled then [FamilyType.Secrets] else []) ++
      (if c.rootkits.enabled then [FamilyType.Rootkits] else []) ++
      (if c.malware.enabled then [FamilyType.Malware] else []) ++
      (if c.misconfiguration.enabled then [FamilyType.Misconfiguration] else []) ++
      (if c.exploits.enabled then [FamilyType.Exploits] else []) }

/-- The fixed family ordering stated by the specification. -/
def fixedFamilyOrder : List FamilyType :=
  [FamilyType.SBOM, FamilyType.Vulnerabilities, FamilyType.Secrets,
   FamilyType.Rootkits, FamilyType.Malware, FamilyType.Misconfiguration,
   FamilyType.Exploits]

/-- Whether a given family is enabled in the configuration. -/
def familyEnabled (c : Config) : FamilyType → Bool
  | FamilyType.SBOM => c.sbom.enabled
  | FamilyType.Vulnerabilities => c.vulnerabilities.enabled
  | FamilyType.Secrets => c.secrets.enabled
  | FamilyType.Rootkits => c.rootkits.enabled
  | FamilyType.Malware => c.malware.enabled
  | FamilyType.Misconfiguration => c.misconfiguration.enabled
  | FamilyType.Exploits => c.exploits.enabled

/-- Modelled from the spec: the results package (shared/pkg/families/results,
not under src/) keeps an append-only mapping from FamilyType to that family
typed result.  We represent it as an association list where the most recent
binding for a type wins. -/
def ResultsStore (ρ : Type) : Type := List (FamilyType × ρ)

/-- Modelled from the spec: results.SetResults stores a result under the
family type of the producing family. -/
def ResultsStore.setResults {ρ : Type} (s : ResultsStore ρ) (ft : FamilyType) (r : ρ) :
    ResultsStore ρ :=
  (ft, r) :: s

/-- Modelled from the spec: retrieving the typed result stored for a family
type, if any. -/
def ResultsStore.getResult {ρ : Type} : ResultsStore ρ → FamilyType → Option ρ
  | [], _ => none
  | (t, r) :: rest, ft => if t = ft then some r else ResultsStore.getResult rest ft

/-- Oracle environment for one Manager.Run invocation.  It fixes the
outcome of every external interaction: the notifier FamilyStarted and
FamilyFinished calls, the family Run implementations (which receive the
results accumulated so far), and, per family, which branch of the select
between the result channel and context cancellation wins. -/
structure FamilyEnv (ρ : Type) where
  familyStartedErr : FamilyType → Option String
  ctxCancelledWins : FamilyType → Bool
  familyRun : FamilyType → ResultsStore ρ → Except String ρ
  familyFinishedErr : FamilyType → Option String

/-- Observable events of one Manager.Run invocation, in order. -/
inductive RunEvent where
  | familyStartedCall (ft : FamilyType)
  | familyRunLaunched (ft : FamilyType)
  | resultStored (ft : FamilyType)
  | familyFinishedCall (ft : FamilyType)
deriving DecidableEq, Repr

/-- The errors Manager.Run collects, as distinguishable values. -/
inductive RunError where
  | familyStartedNotificationFailed (ft : FamilyType) (msg : String)
  | familyFinishedNotificationFailed (ft : FamilyType) (msg : String)
  | atLeastOneFamilyFailed
deriving DecidableEq, Repr

/-- State threaded through the Manager.Run loop: the results store, the
collected error list, the oneOrMoreFamilyFailed flag, and the event trace. -/
structure RunState (ρ : Type) where
  store : ResultsStore ρ
  errors : List RunError
  failed : Bool
  trace : List RunEvent

/-- The FamilyFinished notification: always invoked at the end of a
non-skipped iteration; its failure is appended to the error list but never
aborts the loop. -/
def notifyFamilyFinished {ρ : Type} (env : FamilyEnv ρ) (st : RunState ρ)
    (ft : FamilyType) : RunState ρ :=
  let st := { st with trace := st.trace ++ [RunEvent.familyFinishedCall ft] }
  match env.familyFinishedErr ft with
  | some msg =>
      { st with errors := st.errors ++ [RunError.familyFinishedNotificationFailed ft msg] }
  | none => st

/-- One iteration of the Manager.Run loop for one family, mirroring the
source: FamilyStarted first (failure records an error and skips the
family); otherwise the family Run is launched as a goroutine and raced
against context cancellation; cancellation sets the failure flag and
notifies FamilyFinished with a synthetic aborted error; a completed run
sets the failure flag on error, or stores its result before the
FamilyFinished notification on success. -/
def runFamily {ρ : Type} (env : FamilyEnv ρ) (st : RunState ρ) (ft : FamilyType) :
    RunState ρ :=
  match env.familyStartedErr ft with
  | some msg =>
      { st with
        errors := st.errors ++ [RunError.familyStartedNotificationFailed ft msg],
        trace := st.trace ++ [RunEvent.familyStartedCall ft] }
  | none =>
      let st := { st with
        trace := st.trace ++ [RunEvent.familyStartedCall ft, RunEvent.familyRunLaunched ft] }
      if env.ctxCancelledWins ft then
        notifyFamilyFinished env { st with failed := true } ft
      else
        match env.familyRun ft st.store with
        | Except.error _ => notifyFamilyFinished env { st with failed := true } ft
        | Except.ok r =>
            notifyFamilyFinished env
              { st with
                store := st.store.setResults ft r,
                trace := st.trace ++ [RunEvent.resultStored ft] } ft

/-- Manager.Run: iterate over the family list, then append the generic
failure error when the oneOrMoreFamilyFailed flag is set. -/
def Manager.Run {ρ : Type} (m : Manager) (env : FamilyEnv ρ) : RunState ρ :=
  let st := m.families.foldl (runFamily env) ⟨[], [], false, []⟩
  if st.failed then
    { st with errors := st.errors ++ [RunError.atLeastOneFamilyFailed] }
  else st

/-! Derived descriptions of one iteration, used to state the claims. -/

/-- Whether a family counts as failed for the oneOrMoreFamilyFailed flag:
its FamilyStarted notification succeeded and it was then either aborted by
cancellation or its Run returned an error on the store it was given. -/
def familyAttemptFailed {ρ : Type} (env : FamilyEnv ρ) (s : ResultsStore ρ)
    (ft : FamilyType) : Bool :=
  (env.familyStartedErr ft).isNone &&
    (env.ctxCancelledWins ft ||
      match env.familyRun ft s with
      | Except.error _ => true
      | Except.ok _ => false)

/-- The effect of one iteration on the results store. -/
def storeStep {ρ : Type} (env : FamilyEnv ρ) (s : ResultsStore ρ) (ft : FamilyType) :
    ResultsStore ρ :=
  if (env.familyStartedErr ft).isNone && !env.ctxCancelledWins ft then
    match env.familyRun ft s with
    | Except.ok r => s.setResults ft r
    | Except.error _ => s
  else s

/-- The results store after processing a list of families. -/
def storeAfter {ρ : Type} (env : FamilyEnv ρ) (s : ResultsStore ρ) :
    List FamilyType → ResultsStore ρ
  | [] => s
  | ft :: rest => storeAfter env (storeStep env s ft) rest

/-- Whether some family in the list fails (in the flag sense) along the
run, threading the evolving store into each family Run. -/
def anyFamilyFailed {ρ : Type} (env : FamilyEnv ρ) (s : ResultsStore ρ) :
    List FamilyType → Bool
  | [] => false
  | ft :: rest =>
      familyAttemptFailed env s ft || anyFamilyFailed env (storeStep env s ft) rest

/-- The errors one iteration appends (independent of the store). -/
def famErrors {ρ : Type} (env : FamilyEnv ρ) (ft : FamilyType) : List RunError :=
  match env.familyStartedErr ft with
  | some msg => [RunError.familyStartedNotificationFailed ft msg]
  | none =>
      match env.familyFinishedErr ft with
      | some msg => [RunError.familyFinishedNotificationFailed ft msg]
      | none => []

/-- The errors appended over a list of families. -/
def errorsOf {ρ : Type} (env : FamilyEnv ρ) : List FamilyType → List RunError
  | [] => []
  | ft :: rest => famErrors env ft ++ errorsOf env rest

/-- The events one iteration appends to the trace. -/
def famEvents {ρ : Type} (env : FamilyEnv ρ) (s : ResultsStore ρ) (ft : FamilyType) :
    List RunEvent :=
  match env.familyStartedErr ft with
  | some _ => [RunEvent.familyStartedCall ft]
  | none =>
      [RunEvent.familyStartedCall ft, RunEvent.familyRunLaunched ft] ++
        (if env.ctxCancelledWins ft then [RunEvent.familyFinishedCall ft]
         else
           match env.familyRun ft s with
           | Except.ok _ => [RunEvent.resultStored ft, RunEvent.familyFinishedCall ft]
           | Except.error _ => [RunEvent.familyFinishedCall ft])

/-- The events appended over a list of families. -/
def eventsOf {ρ : Type} (env : FamilyEnv ρ) (s : ResultsStore ρ) :
    List FamilyType → List RunEvent
  | [] => []
  | ft :: rest => famEvents env s ft ++ eventsOf env (storeStep env s ft) rest

/-- The family types whose FamilyStarted notification was attempted, in
trace order. -/
def startedCalls (trace : List RunEvent) : List FamilyType :=
  trace.filterMap fun e =>
    match e with
    | RunEvent.familyStartedCall ft => some ft
    | _ => none

/-- The family types whose Run was actually launched, in trace order. -/
def launchedCalls (trace : List RunEvent) : List FamilyType :=
  trace.filterMap fun e =>
    match e with
    | RunEvent.familyRunLaunched ft => some ft
    | _ => none

/-! ## Azure provider: tag filtering and target discovery (C5) -/

/-- A key/value tag (models.Tag). -/
structure Tag where
  key : String
  value : String
deriving DecidableEq, Repr

/-- A discovered virtual machine: its identity plus its tag map.  The Go
tag map (map from string to string pointer) is modelled as an association
list with first-match lookup. -/
structure VirtualMachine where
  id : String
  tags : List (String × String)
deriving DecidableEq, Repr

/-- Lookup in the VM tag map, first match wins. -/
def lookupTag : List (String × String) → String → Option String
  | [], _ => none
  | (k, v) :: rest, key => if k = key then some v else lookupTag rest key

/-- The VM carries a given key/value tag. -/
def carriesTag (vm : VirtualMachine) (t : Tag) : Prop :=
  lookupTag vm.tags t.key = some t.value

/-- hasIncludeTags: a nil or empty selector includes everything; a VM with
no tags is not included by a non-empty selector; otherwise the VM must
carry every selector tag (AND logic). -/
def hasIncludeTags (vm : VirtualMachine) (tags : Option (List Tag)) : Bool :=
  match tags with
  | none => true
  | some ts =>
      if ts.length = 0 then true
      else if vm.tags.length = 0 then false
      else ts.all fun t =>
        match lookupTag vm.tags t.key with
        | some v => v == t.value
        | none => false

/-- hasExcludeTags: a nil or empty selector excludes nothing; a VM with no
tags is never excluded; otherwise the VM is excluded only if it carries
every selector tag (AND logic). -/
def hasExcludeTags (vm : VirtualMachine) (tags : Option (List Tag)) : Bool :=
  match tags with
  | none => false
  | some ts =>
      if ts.length = 0 then false
      else if vm.tags.length = 0 then false
      else ts.all fun t =>
        match lookupTag vm.tags t.key with
        | some v => v == t.value
        | none => false

/-- The tag portion of models.AzureScanScope. -/
structure AzureScanScope where
  instanceTagSelector : Option (List Tag)
  instanceTagExclusion : Option (List Tag)
deriving Repr

/-- processVirtualMachineListIntoTargetTypes: emit each VM that passes the
inclusion filter and is not caught by the exclusion filter.  The
conversion of a VM into a TargetType (getVMInfoFromVirtualMachine) copies
fields and is modelled as the identity. -/
def processVirtualMachineListIntoTargetTypes :
    List VirtualMachine → AzureScanScope → List VirtualMachine
  | [], _ => []
  | vm :: rest, scope =>
      if !hasIncludeTags vm scope.instanceTagSelector then
        processVirtualMachineListIntoTargetTypes rest scope
      else if hasExcludeTags vm scope.instanceTagExclusion then
        processVirtualMachineListIntoTargetTypes rest scope
      else vm :: processVirtualMachineListIntoTargetTypes rest scope

/-! ## Azure provider: error taxonomy and instance-id parsing (C6, C7, C8) -/

/-- Modelled from the spec: the provider error taxonomy
(runtime_scan/pkg/provider, not under src/).  A retryable error carries an
estimated wait hint (in seconds here); a fatal error never resolves by
retrying; plain errors are everything else, and the ensure helpers wrap
inner errors with a context message. -/
inductive ProviderError where
  | retryableError (estimatedWaitSeconds : Nat) (msg : String)
  | fatalError (msg : String)
  | plainError (msg : String)
  | wrappedError (ctx : String) (inner : ProviderError)
deriving DecidableEq, Repr

/-- VMCreateEstimateProvisionTime (2 minutes), in seconds. -/
def VMCreateEstimateProvisionTimeSeconds : Nat := 120

/-- The constants used by resourceGroupAndNameFromInstanceID. -/
def instanceIDPartsLength : Nat := 9

/-- Index of the resource group in the split instance id. -/
def resourceGroupPartIdx : Nat := 4

/-- Index of the VM name in the split instance id. -/
def vmNamePartIdx : Nat := 8

/-- Splitting a character list at every occurrence of a separator
character; the Go strings.Split semantics for a one-character separator
(an empty input gives one empty part). -/
def splitCharList (c : Char) : List Char → List (List Char)
  | [] => [[]]
  | x :: rest =>
      let r := splitCharList c rest
      if x = c then [] :: r
      else
        match r with
        | [] => [[x]]
        | y :: ys => (x :: y) :: ys

/-- strings.Split of a string on the slash separator. -/
def splitOnSlash (s : String) : List String :=
  (splitCharList (Char.ofNat 47) s.toList).map fun l => String.mk l

/-- resourceGroupAndNameFromInstanceID: split the instance id on the slash
character; exactly nine parts are required, and parts four and eight (zero
based) are the resource group and the VM name; anything else is a fatal
error (the message prints the parts slice, as the Go format verb does). -/
def resourceGroupAndNameFromInstanceID (instanceID : String) :
    Except ProviderError (String × String) :=
  let idParts := splitOnSlash instanceID
  if h : idParts.length = instanceIDPartsLength then
    Except.ok
      (idParts.get ⟨resourceGroupPartIdx, by rw [h]; decide⟩,
       idParts.get ⟨vmNamePartIdx, by rw [h]; decide⟩)
  else
    Except.error (ProviderError.fatalError
      ("asset instance id in unexpected format got: " ++ toString idParts))

/-- An error returned by an Azure SDK call, with its not-found
classification.  Modelled from the spec: handleAzureRequestError (not
under src/) classifies an Azure response error as not-found or not and
converts it into a provider error. -/
structure AzureGetErr where
  notFound : Bool
  msg : String
deriving DecidableEq, Repr

/-- Modelled from the spec: handleAzureRequestError returns the not-found
classification together with the converted error. -/
def handleAzureRequestError (e : AzureGetErr) : Bool × ProviderError :=
  (e.notFound, ProviderError.plainError e.msg)

/-- Modelled from the spec: the terminal provisioning state constant. -/
def ProvisioningStateSucceeded : String := "Succeeded"

/-- An Azure virtual machine as seen by the scanner lifecycle: its name
and its provisioning state. -/
structure AzureVM where
  name : String
  provisioningState : String
deriving DecidableEq, Repr

/-- The zero value armcompute.VirtualMachine returned on error paths. -/
def emptyAzureVM : AzureVM := { name := "", provisioningState := "" }

/-- The Azure SDK calls ensureScannerVirtualMachine can issue. -/
inductive AzureCall where
  | getCall
  | beginCreateCall
deriving DecidableEq, Repr

/-- Oracle environment for one ensureScannerVirtualMachine invocation. -/
structure ScannerVMEnv where
  getScannerVM : Except AzureGetErr AzureVM
  cloudInit : Except String String
  beginCreateErr : Option AzureGetErr

/-- Outcome of one ensureScannerVirtualMachine invocation: the returned VM
value, the returned error, and the SDK calls issued, in order. -/
structure EnsureVMOutcome where
  vm : AzureVM
  err : Option ProviderError
  calls : List AzureCall
deriving DecidableEq, Repr

/-- ensureScannerVirtualMachine: get the scanner VM by its deterministic
name; if found and provisioning state is Succeeded return it with no
error; if found in any other state return it with a retryable error
carrying the estimated provision wait; if the get failed with anything but
not-found propagate the error; otherwise generate the cloud-init payload
and begin an asynchronous create, answering with a retryable error. -/
def ensureScannerVirtualMachine (env : ScannerVMEnv) : EnsureVMOutcome :=
  match env.getScannerVM with
  | Except.ok vm =>
      if vm.provisioningState ≠ ProvisioningStateSucceeded then
        { vm := vm,
          err := some (ProviderError.retryableError VMCreateEstimateProvisionTimeSeconds
            ("VM is not ready yet, provisioning state: " ++ vm.provisioningState)),
          calls := [AzureCall.getCall] }
      else
        { vm := vm, err := none, calls := [AzureCall.getCall] }
  | Except.error e =>
      let nf := handleAzureRequestError e
      if !nf.1 then
        { vm := emptyAzureVM, err := some nf.2, calls := [AzureCall.getCall] }
      else
        match env.cloudInit with
        | Except.error msg =>
            { vm := emptyAzureVM,
              err := some (ProviderError.plainError ("failed to generate cloud-init: " ++ msg)),
              calls := [AzureCall.getCall] }
        | Except.ok _ =>
            match env.beginCreateErr with
            | some e2 =>
                { vm := emptyAzureVM,
                  err := some (handleAzureRequestError e2).2,
                  calls := [AzureCall.getCall, AzureCall.beginCreateCall] }
            | none =>
                { vm := emptyAzureVM,
                  err := some (ProviderError.retryableError
                    VMCreateEstimateProvisionTimeSeconds "vm created"),
                  calls := [AzureCall.getCall, AzureCall.beginCreateCall] }

/-! ## Azure provider: RunTargetScan pipeline (C7) -/

/-- The external pipeline steps RunTargetScan performs after parsing. -/
inductive ScanStep where
  | getTargetVM
  | ensureSnapshot
  | ensureDisk
  | ensureNIC
  | ensureScannerVM
  | ensureDiskAttached
deriving DecidableEq, Repr

/-- The target VM data RunTargetScan consumes: its location decides the
same-region versus cross-region disk path. -/
structure TargetVM where
  location : String
deriving DecidableEq, Repr

/-- The VM info extracted from the target (config.TargetInfo.AsVMInfo). -/
structure VMInfoData where
  instanceID : String
deriving DecidableEq, Repr

/-- Oracle environment for one RunTargetScan invocation: the outcome of
each external call, plus the scanner pool location from configuration. -/
structure RunScanEnv where
  asVMInfo : Except String VMInfoData
  getTargetVM : Except AzureGetErr TargetVM
  scannerLocation : String
  snapshotStep : Except ProviderError Unit
  diskSameRegionStep : Except ProviderError Unit
  diskDiffRegionStep : Except ProviderError Unit
  nicStep : Except ProviderError Unit
  scannerVMStep : Except ProviderError Unit
  attachStep : Except ProviderError Unit

/-- Outcome of one RunTargetScan invocation: the returned error, if any,
and the pipeline steps attempted, in order. -/
structure RunScanOutcome where
  err : Option ProviderError
  steps : List ScanStep
deriving DecidableEq, Repr

/-- RunTargetScan: extract VM info, parse the instance id, then run the
creation pipeline in order (get target VM, ensure snapshot, ensure disk in
the same or a different region, ensure network interface, ensure scanner
VM, ensure disk attached), stopping at the first failing step and wrapping
its error with a context message. -/
def RunTargetScan (env : RunScanEnv) : RunScanOutcome :=
  match env.asVMInfo with
  | Except.error msg =>
      { err := some (ProviderError.fatalError ("unable to get vminfo from target: " ++ msg)),
        steps := [] }
  | Except.ok vmInfo =>
      match resourceGroupAndNameFromInstanceID vmInfo.instanceID with
      | Except.error e => { err := some e, steps := [] }
      | Except.ok _ =>
          match env.getTargetVM with
          | Except.error e =>
              { err := some (handleAzureRequestError e).2, steps := [ScanStep.getTargetVM] }
          | Except.ok targetVM =>
              match env.snapshotStep with
              | Except.error e =>
                  { err := some (ProviderError.wrappedError
                      "failed to ensure snapshot for vm root volume" e),
                    steps := [ScanStep.getTargetVM, ScanStep.ensureSnapshot] }
              | Except.ok _ =>
                  let diskStep :=
                    if targetVM.location = env.scannerLocation then env.diskSameRegionStep
                    else env.diskDiffRegionStep
                  match diskStep with
                  | Except.error e =>
                      { err := some (ProviderError.wrappedError
                          "failed to ensure managed disk created from snapshot" e),
                        steps := [ScanStep.getTargetVM, ScanStep.ensureSnapshot,
                          ScanStep.ensureDisk] }
                  | Except.ok _ =>
                      match env.nicStep with
                      | Except.error e =>
                          { err := some (ProviderError.wrappedError
                              "failed to ensure scanner network interface" e),
                            steps := [ScanStep.getTargetVM, ScanStep.ensureSnapshot,
                              ScanStep.ensureDisk, ScanStep.ensureNIC] }
                      | Except.ok _ =>
                          match env.scannerVMStep with
                          | Except.error e =>
                              { err := some (ProviderError.wrappedError
                                  "failed to ensure scanner virtual machine" e),
                                steps := [ScanStep.getTargetVM, ScanStep.ensureSnapshot,
                                  ScanStep.ensureDisk, ScanStep.ensureNIC,
                                  ScanStep.ensureScannerVM] }
                          | Except.ok _ =>
                              match env.attachStep with
                              | Except.error e =>
                                  { err := some (ProviderError.wrappedError
                                      "failed to ensure target disk is attached to virtual machine" e),
                                    steps := [ScanStep.getTargetVM, ScanStep.ensureSnapshot,
                                      ScanStep.ensureDisk, ScanStep.ensureNIC,
                                      ScanStep.ensureScannerVM, ScanStep.ensureDiskAttached] }
                              | Except.ok _ =>
                                  { err := none,
                                    steps := [ScanStep.getTargetVM, ScanStep.ensureSnapshot,
                                      ScanStep.ensureDisk, ScanStep.ensureNIC,
                                      ScanStep.ensureScannerVM, ScanStep.ensureDiskAttached] }

/-! ## Azure provider: RemoveTargetScan teardown (C8) -/

/-- The five teardown steps, in source order. -/
inductive RemoveStep where
  | deleteScannerVM
  | deleteNIC
  | deleteTargetDisk
  | deleteBlob
  | deleteSnapshot
deriving DecidableEq, Repr

/-- Oracle environment for one RemoveTargetScan invocation: the outcome of
each ensure-deleted helper (none means the step succeeded). -/
structure RemoveEnv where
  vmDeleteErr : Option String
  nicDeleteErr : Option String
  diskDeleteErr : Option String
  blobDeleteErr : Option String
  snapshotDeleteErr : Option String
deriving DecidableEq, Repr

/-- Outcome of one RemoveTargetScan invocation: the returned error
(context message paired with the inner error), and the steps attempted. -/
structure RemoveOutcome where
  err : Option (String × String)
  steps : List RemoveStep
deriving DecidableEq, Repr

/-- RemoveTargetScan: delete the scanner VM, the network interface, the
target disk, the snapshot-copy blob and the snapshot, in that order,
returning the first failure immediately. -/
def RemoveTargetScan (env : RemoveEnv) : RemoveOutcome :=
  match env.vmDeleteErr with
  | some e =>
      { err := some ("failed to ensure scanner virtual machine deleted", e),
        steps := [RemoveStep.deleteScannerVM] }
  | none =>
      match env.nicDeleteErr with
      | some e =>
          { err := some ("failed to ensure network interface deleted", e),
            steps := [RemoveStep.deleteScannerVM, RemoveStep.deleteNIC] }
      | none =>
          match env.diskDeleteErr with
          | some e =>
              { err := some ("failed to ensure target disk deleted", e),
                steps := [RemoveStep.deleteScannerVM, RemoveStep.deleteNIC,
                  RemoveStep.deleteTargetDisk] }
          | none =>
              match env.blobDeleteErr with
              | some e =>
                  { err := some ("failed to ensure snapshot copy blob deleted", e),
                    steps := [RemoveStep.deleteScannerVM, RemoveStep.deleteNIC,
                      RemoveStep.deleteTargetDisk, RemoveStep.deleteBlob] }
              | none =>
                  match env.snapshotDeleteErr with
                  | some e =>
                      { err := some ("failed to ensure snapshot deleted", e),
                        steps := [RemoveStep.deleteScannerVM, RemoveStep.deleteNIC,
                          RemoveStep.deleteTargetDisk, RemoveStep.deleteBlob,
                          RemoveStep.deleteSnapshot] }
                  | none =>
                      { err := none,
                        steps := [RemoveStep.deleteScannerVM, RemoveStep.deleteNIC,
                          RemoveStep.deleteTargetDisk, RemoveStep.deleteBlob,
                          RemoveStep.deleteSnapshot] }

/-! ## Database layer: scan result creation and revisions (C9, C10) -/

/-- A relationship carrying only the id we care about (models.ScanRelationship1
and models.TargetRelationship1 both expose an Id field). -/
structure RelId where
  id : String
deriving DecidableEq, Repr

/-- A TargetScanResult document as stored and returned by the gorm layer.
The scan and target relationships are optional pointers in Go; payload
stands for every remaining field of the document. -/
structure TargetScanResult where
  id : Option String
  revision : Option Int
  scan : Option RelId
  target : Option RelId
  payload : String
deriving DecidableEq, Repr

/-- Outcome of checkUniqueness: either the input is unique, or a
conflicting record exists (the first match is returned), or the Go code
dereferences a nil Scan or Target pointer and panics. -/
inductive CheckOutcome where
  | unique
  | conflictFound (existing : TargetScanResult)
  | panicNilPtr
deriving DecidableEq, Repr

/-- checkUniqueness: query the stored documents for one with a different
id but the same target id and scan id; the first match is a conflict.
Dereferencing scanResult.Target.Id and scanResult.Scan.Id requires both
pointers to be non-nil, otherwise the Go code panics. -/
def checkUniqueness (db : List TargetScanResult) (scanResult : TargetScanResult) :
    CheckOutcome :=
  match scanResult.id, scanResult.target, scanResult.scan with
  | some i, some t, some s =>
      match db.filter (fun r =>
          !(r.id == some i) &&
          ((r.target.map fun x => x.id) == some t.id) &&
          ((r.scan.map fun x => x.id) == some s.id)) with
      | [] => CheckOutcome.unique
      | r :: _ => CheckOutcome.conflictFound r
  | _, _, _ => CheckOutcome.panicNilPtr

/-- Outcome of CreateScanResult, as distinguishable values. -/
inductive CreateResult where
  | badRequest (reason : String)
  | conflict (existing : TargetScanResult) (reason : String)
  | created (res : TargetScanResult)
  | panicNilPtr
deriving DecidableEq, Repr

/-- CreateScanResult: reject a Scan with empty id, a Target with empty id,
or a caller-provided Id; otherwise set a freshly generated UUID as the id
and initialise the revision to 1, check uniqueness of the target id and
scan id pair (returning the existing record on conflict), and insert the
new document.  JSON marshalling roundtrips are modelled as the identity;
the fresh UUID is a parameter. -/
def CreateScanResult (db : List TargetScanResult) (freshId : String)
    (scanResult : TargetScanResult) : CreateResult × List TargetScanResult :=
  if (match scanResult.scan with | some s => s.id == "" | none => false) then
    (CreateResult.badRequest "scan.id is a required field", db)
  else if (match scanResult.target with | some t => t.id == "" | none => false) then
    (CreateResult.badRequest "target.id is a required field", db)
  else if scanResult.id.isSome then
    (CreateResult.badRequest "can not specify id field when creating a new ScanResult", db)
  else
    let scanResult := { scanResult with id := some freshId, revision := some 1 }
    match checkUniqueness db scanResult with
    | CheckOutcome.panicNilPtr => (CreateResult.panicNilPtr, db)
    | CheckOutcome.conflictFound r =>
        (CreateResult.conflict r "Scan results exists with same target id and scan id", db)
    | CheckOutcome.unique =>
        (CreateResult.created scanResult, db ++ [scanResult])

/-- Outcome of checkRevisionEtag.  The guard in the source fires both when
the revisions differ and when the stored revision is nil, but the reason
message dereferences the stored revision pointer, so the nil case panics
instead of returning the error. -/
inductive RevisionCheck where
  | ok
  | preconditionFailed (reason : String)
  | panicNilRevision
deriving DecidableEq, Repr

/-- checkRevisionEtag: mirrors the source guard
(ifMatch non-nil and revision non-nil and values differ) or
(ifMatch non-nil and revision nil); in the first case the
PreconditionFailedError is built from both values, in the second case
building the reason dereferences the nil revision pointer. -/
def checkRevisionEtag (ifMatch : Option Int) (revision : Option Int) : RevisionCheck :=
  match ifMatch, revision with
  | some im, some rev =>
      if im ≠ rev then
        RevisionCheck.preconditionFailed
          ("Revision " ++ toString rev ++ " does not match " ++ toString im ++
           ". The object may have been modified since you started the request.")
      else RevisionCheck.ok
  | some _, none => RevisionCheck.panicNilRevision
  | none, _ => RevisionCheck.ok

/-- bumpRevision: increment a non-nil revision, start at 1 otherwise. -/
def bumpRevision (oldrevision : Option Int) : Option Int :=
  match oldrevision with
  | some r => some (r + 1)
  | none => some 1

/-! ## Concrete oracle environments used by counterexamples and witnesses -/

/-- Concrete environment for the C1 counterexample: the notifier
FamilyStarted call fails for SBOM, everything else succeeds. -/
def envC1 : FamilyEnv Nat where
  familyStartedErr := fun ft =>
    match ft with
    | FamilyType.SBOM => some "notifier unavailable"
    | _ => none
  ctxCancelledWins := fun _ => false
  familyRun := fun _ _ => Except.ok 0
  familyFinishedErr := fun _ => none

/-- Configuration enabling only the SBOM family. -/
def configC1 : Config :=
  { sbom := ⟨true⟩, vulnerabilities := ⟨false⟩, secrets := ⟨false⟩, rootkits := ⟨false⟩,
    malware := ⟨false⟩, misconfiguration := ⟨false⟩, exploits := ⟨false⟩ }

/-- Concrete environment for the C3 witness: SBOM succeeds with result 7,
the cancellation branch wins for Secrets. -/
def envC3 : FamilyEnv Nat where
  familyStartedErr := fun _ => none
  ctxCancelledWins := fun ft =>
    match ft with
    | FamilyType.Secrets => true
    | _ => false
  familyRun := fun _ _ => Except.ok 7
  familyFinishedErr := fun _ => none

/-- Concrete environment for the C4 witness: the FamilyStarted call fails
for SBOM only. -/
def envC4 : FamilyEnv Nat where
  familyStartedErr := fun ft =>
    match ft with
    | FamilyType.SBOM => some "boom"
    | _ => none
  ctxCancelledWins := fun _ => false
  familyRun := fun _ _ => Except.ok 0
  familyFinishedErr := fun _ => none

/-- Concrete environment for the C6 witness: the scanner VM already exists
in terminal state. -/
def envC6 : ScannerVMEnv where
  getScannerVM := Except.ok { name := "vmclarity-scanner-1", provisioningState := "Succeeded" }
  cloudInit := Except.ok "payload"
  beginCreateErr := none

/-- Concrete environment for the C7 witness: a malformed instance id. -/
def envC7 : RunScanEnv where
  asVMInfo := Except.ok { instanceID := "bad-id" }
  getTargetVM := Except.ok { location := "eastus" }
  scannerLocation := "eastus"
  snapshotStep := Except.ok ()
  diskSameRegionStep := Except.ok ()
  diskDiffRegionStep := Except.ok ()
  nicStep := Except.ok ()
  scannerVMStep := Except.ok ()
  attachStep := Except.ok ()

/-- Concrete environment for the C8 witness: the network interface delete
fails. -/
def envC8 : RemoveEnv where
  vmDeleteErr := none
  nicDeleteErr := some "nic delete rejected"
  diskDeleteErr := none
  blobDeleteErr := none
  snapshotDeleteErr := none

/-! ## Helper lemmas: one iteration of the Manager.Run loop -/

theorem notifyFamilyFinished_store {ρ : Type} (env : FamilyEnv ρ) (st : RunState ρ)
    (ft : FamilyType) : (notifyFamilyFinished env st ft).store = st.store := by
  unfold notifyFamilyFinished
  cases h : env.familyFinishedErr ft <;> simp [h]

theorem notifyFamilyFinished_failed {ρ : Type} (env : FamilyEnv ρ) (st : RunState ρ)
    (ft : FamilyType) : (notifyFamilyFinished env st ft).failed = st.failed := by
  unfold notifyFamilyFinished
  cases h : env.familyFinishedErr ft <;> simp [h]

theorem notifyFamilyFinished_errors {ρ : Type} (env : FamilyEnv ρ) (st : RunState ρ)
    (ft : FamilyType) :
    (notifyFamilyFinished env st ft).errors =
      st.errors ++
        (match env.familyFinishedErr ft with
         | some msg => [RunError.familyFinishedNotificationFailed ft msg]
         | none => []) := by
  unfold notifyFamilyFinished
  cases h : env.familyFinishedErr ft <;> simp [h]

theorem notifyFamilyFinished_trace {ρ : Type} (env : FamilyEnv ρ) (st : RunState ρ)
    (ft : FamilyType) :
    (notifyFamilyFinished env st ft).trace = st.trace ++ [RunEvent.familyFinishedCall ft] := by
  unfold notifyFamilyFinished
  cases h : env.familyFinishedErr ft <;> simp [h]

theorem runFamily_store {ρ : Type} (env : FamilyEnv ρ) (st : RunState ρ) (ft : FamilyType) :
    (runFamily env st ft).store = storeStep env st.store ft := by
  unfold runFamily storeStep
  cases hs : env.familyStartedErr ft with
  | some msg => simp
  | none =>
    simp only [Option.isNone_none, Bool.true_and]
    cases hc : env.ctxCancelledWins ft with
    | true => simp [notifyFamilyFinished_store]
    | false =>
      cases hr : env.familyRun ft st.store with
      | error e => simp [hr, notifyFamilyFinished_store]
      | ok r => simp [hr, notifyFamilyFinished_store]

theorem runFamily_failed {ρ : Type} (env : FamilyEnv ρ) (st : RunState ρ) (ft : FamilyType) :
    (runFamily env st ft).failed = (st.failed || familyAttemptFailed env st.store ft) := by
  unfold runFamily familyAttemptFailed
  cases hs : env.familyStartedErr ft with
  | some msg => simp
  | none =>
    simp only [Option.isNone_none, Bool.true_and]
    cases hc : env.ctxCancelledWins ft with
    | true => simp [notifyFamilyFinished_failed]
    | false =>
      cases hr : env.familyRun ft st.store with
      | error e => simp [hr, notifyFamilyFinished_failed]
      | ok r => simp [hr, notifyFamilyFinished_failed]

theorem runFamily_errors {ρ : Type} (env : FamilyEnv ρ) (st : RunState ρ) (ft : FamilyType) :
    (runFamily env st ft).errors = st.errors ++ famErrors env ft := by
  unfold runFamily famErrors
  cases hs : env.familyStartedErr ft with
  | some msg => simp
  | none =>
    cases hc : env.ctxCancelledWins ft with
    | true => simp [notifyFamilyFinished_errors]
    | false =>
      cases hr : env.familyRun ft st.store with
      | error e => simp [hr, notifyFamilyFinished_errors]
      | ok r => simp [hr, notifyFamilyFinished_errors]

theorem runFamily_trace {ρ : Type} (env : FamilyEnv ρ) (st : RunState ρ) (ft : FamilyType) :
    (runFamily env st ft).trace = st.trace ++ famEvents env st.store ft := by
  unfold runFamily famEvents
  cases hs : env.familyStartedErr ft with
  | some msg => simp
  | none =>
    cases hc : env.ctxCancelledWins ft with
    | true => simp [notifyFamilyFinished_trace]
    | false =>
      cases hr : env.familyRun ft st.store with
      | error e => simp [hr, notifyFamilyFinished_trace]
      | ok r => simp [hr, notifyFamilyFinished_trace]

/-! ## Helper lemmas: the whole Manager.Run fold -/

theorem foldl_runFamily_store {ρ : Type} (env : FamilyEnv ρ) :
    ∀ (fams : List FamilyType) (st : RunState ρ),
      (fams.foldl (runFamily env) st).store = storeAfter env st.store fams := by
  intro fams
  induction fams with
  | nil => intro st; simp [storeAfter]
  | cons ft rest ih =>
    intro st
    simp only [List.foldl_cons, storeAfter]
    rw [ih, runFamily_store]

theorem foldl_runFamily_failed {ρ : Type} (env : FamilyEnv ρ) :
    ∀ (fams : List FamilyType) (st : RunState ρ),
      (fams.foldl (runFamily env) st).failed =
        (st.failed || anyFamilyFailed env st.store fams) := by
  intro fams
  induction fams with
  | nil => intro st; simp [anyFamilyFailed]
  | cons ft rest ih =>
    intro st
    simp only [List.foldl_cons, anyFamilyFailed]
    rw [ih, runFamily_failed, runFamily_store, Bool.or_assoc]

theorem foldl_runFamily_errors {ρ : Type} (env : FamilyEnv ρ) :
    ∀ (fams : List FamilyType) (st : RunState ρ),
      (fams.foldl (runFamily env) st).errors = st.errors ++ errorsOf env fams := by
  intro fams
  induction fams with
  | nil => intro st; simp [errorsOf]
  | cons ft rest ih =>
    intro st
    simp only [List.foldl_cons, errorsOf]
    rw [ih, runFamily_errors, List.append_assoc]

theorem foldl_runFamily_trace {ρ : Type} (env : FamilyEnv ρ) :
    ∀ (fams : List FamilyType) (st : RunState ρ),
      (fams.foldl (runFamily env) st).trace = st.trace ++ eventsOf env st.store fams := by
  intro fams
  induction fams with
  | nil => intro st; simp [eventsOf]
  | cons ft rest ih =>
    intro st
    simp only [List.foldl_cons, eventsOf]
    rw [ih, runFamily_trace, runFamily_store, List.append_assoc]

theorem managerRun_store {ρ : Type} (m : Manager) (env : FamilyEnv ρ) :
    (m.Run env).store = storeAfter env [] m.families := by
  simp only [Manager.Run]
  split <;> simp [foldl_runFamily_store]

theorem managerRun_trace {ρ : Type} (m : Manager) (env : FamilyEnv ρ) :
    (m.Run env).trace = eventsOf env [] m.families := by
  simp only [Manager.Run]
  split <;> simp [foldl_runFamily_trace]

theorem managerRun_failed {ρ : Type} (m : Manager) (env : FamilyEnv ρ) :
    (m.Run env).failed = anyFamilyFailed env [] m.families := by
  simp only [Manager.Run]
  have hf := foldl_runFamily_failed env m.families ⟨[], [], false, []⟩
  simp only [Bool.false_or] at hf
  split <;> simpa using hf

theorem managerRun_errors {ρ : Type} (m : Manager) (env : FamilyEnv ρ) :
    (m.Run env).errors =
      errorsOf env m.families ++
        (if anyFamilyFailed env [] m.families then [RunError.atLeastOneFamilyFailed]
         else []) := by
  simp only [Manager.Run]
  have hf := foldl_runFamily_failed env m.families ⟨[], [], false, []⟩
  have he := foldl_runFamily_errors env m.families ⟨[], [], false, []⟩
  simp only [Bool.false_or] at hf
  split
  case isTrue h =>
    simp only [he]
    rw [hf] at h
    simp [h]
  case isFalse h =>
    simp only [he]
    rw [hf] at h
    simp at h
    simp [h]

/-! ## Helper lemmas: errors, events and the results store -/

theorem atLeastOne_not_mem_famErrors {ρ : Type} (env : FamilyEnv ρ) (ft : FamilyType) :
    RunError.atLeastOneFamilyFailed ∉ famErrors env ft := by
  unfold famErrors
  cases env.familyStartedErr ft with
  | some msg => simp
  | none => cases env.familyFinishedErr ft <;> simp

theorem atLeastOne_not_mem_errorsOf {ρ : Type} (env : FamilyEnv ρ) :
    ∀ (fams : List FamilyType), RunError.atLeastOneFamilyFailed ∉ errorsOf env fams := by
  intro fams
  induction fams with
  | nil => simp [errorsOf]
  | cons ft rest ih =>
    simp only [errorsOf, List.mem_append]
    push_neg
    exact ⟨atLeastOne_not_mem_famErrors env ft, ih⟩

theorem mem_errorsOf_of_mem {ρ : Type} (env : FamilyEnv ρ) {e : RunError} :
    ∀ {fams : List FamilyType} {ft : FamilyType}, ft ∈ fams → e ∈ famErrors env ft →
      e ∈ errorsOf env fams := by
  intro fams
  induction fams with
  | nil => intro ft h; simp at h
  | cons g rest ih =>
    intro ft h he
    simp only [List.mem_cons] at h
    simp only [errorsOf, List.mem_append]
    rcases h with h | h
    · subst h; exact Or.inl he
    · exact Or.inr (ih h he)

theorem startedCalls_append (t1 t2 : List RunEvent) :
    startedCalls (t1 ++ t2) = startedCalls t1 ++ startedCalls t2 := by
  simp [startedCalls, List.filterMap_append]

theorem launchedCalls_append (t1 t2 : List RunEvent) :
    launchedCalls (t1 ++ t2) = launchedCalls t1 ++ launchedCalls t2 := by
  simp [launchedCalls, List.filterMap_append]

theorem startedCalls_famEvents {ρ : Type} (env : FamilyEnv ρ) (s : ResultsStore ρ)
    (ft : FamilyType) : startedCalls (famEvents env s ft) = [ft] := by
  unfold famEvents
  cases env.familyStartedErr ft with
  | some msg => simp [startedCalls]
  | none =>
    cases hc : env.ctxCancelledWins ft with
    | true => simp [startedCalls]
    | false =>
      cases env.familyRun ft s <;> simp [startedCalls]

theorem launchedCalls_famEvents {ρ : Type} (env : FamilyEnv ρ) (s : ResultsStore ρ)
    (ft : FamilyType) :
    launchedCalls (famEvents env s ft) =
      (if (env.familyStartedErr ft).isNone then [ft] else []) := by
  unfold famEvents
  cases env.familyStartedErr ft with
  | some msg => simp [launchedCalls]
  | none =>
    cases hc : env.ctxCancelledWins ft with
    | true => simp [launchedCalls]
    | false =>
      cases env.familyRun ft s <;> simp [launchedCalls]

theorem startedCalls_eventsOf {ρ : Type} (env : FamilyEnv ρ) :
    ∀ (fams : List FamilyType) (s : ResultsStore ρ),
      startedCalls (eventsOf env s fams) = fams := by
  intro fams
  induction fams with
  | nil => intro s; simp [eventsOf, startedCalls]
  | cons ft rest ih =>
    intro s
    simp only [eventsOf]
    rw [startedCalls_append, startedCalls_famEvents, ih]
    rfl

theorem launchedCalls_eventsOf {ρ : Type} (env : FamilyEnv ρ) :
    ∀ (fams : List FamilyType) (s : ResultsStore ρ),
      launchedCalls (eventsOf env s fams) =
        fams.filter fun ft => (env.familyStartedErr ft).isNone := by
  intro fams
  induction fams with
  | nil => intro s; simp [eventsOf, launchedCalls]
  | cons ft rest ih =>
    intro s
    simp only [eventsOf, List.filter_cons]
    rw [launchedCalls_append, launchedCalls_famEvents, ih]
    cases h : (env.familyStartedErr ft).isNone <;> simp

theorem mem_launchedCalls {ft : FamilyType} :
    ∀ {trace : List RunEvent},
      RunEvent.familyRunLaunched ft ∈ trace → ft ∈ launchedCalls trace := by
  intro trace h
  unfold launchedCalls
  exact List.mem_filterMap.2 ⟨RunEvent.familyRunLaunched ft, h, rfl⟩

theorem getResult_setResults_self {ρ : Type} (s : ResultsStore ρ) (ft : FamilyType) (r : ρ) :
    (s.setResults ft r).getResult ft = some r := by
  simp [ResultsStore.setResults, ResultsStore.getResult]

theorem getResult_setResults_ne {ρ : Type} (s : ResultsStore ρ) {t ft : FamilyType} (r : ρ)
    (h : t ≠ ft) : (s.setResults t r).getResult ft = s.getResult ft := by
  simp [ResultsStore.setResults, ResultsStore.getResult, h]

theorem getResult_storeStep_ne {ρ : Type} (env : FamilyEnv ρ) (s : ResultsStore ρ)
    {g ft : FamilyType} (h : g ≠ ft) :
    (storeStep env s g).getResult ft = s.getResult ft := by
  unfold storeStep
  split
  · cases env.familyRun g s with
    | ok r => simp [getResult_setResults_ne s r h]
    | error e => simp
  · rfl

theorem getResult_storeAfter_not_mem {ρ : Type} (env : FamilyEnv ρ) {ft : FamilyType} :
    ∀ {fams : List FamilyType} (s : ResultsStore ρ), ft ∉ fams →
      (storeAfter env s fams).getResult ft = s.getResult ft := by
  intro fams
  induction fams with
  | nil => intro s _; rfl
  | cons g rest ih =>
    intro s h
    simp only [List.mem_cons] at h
    push_neg at h
    simp only [storeAfter]
    rw [ih _ h.2, getResult_storeStep_ne env s (fun he => h.1 he.symm)]

theorem storeAfter_append {ρ : Type} (env : FamilyEnv ρ) :
    ∀ (l1 l2 : List FamilyType) (s : ResultsStore ρ),
      storeAfter env s (l1 ++ l2) = storeAfter env (storeAfter env s l1) l2 := by
  intro l1
  induction l1 with
  | nil => intro l2 s; rfl
  | cons g rest ih =>
    intro l2 s
    rw [List.cons_append]
    simp only [storeAfter]
    rw [ih]

theorem eventsOf_append {ρ : Type} (env : FamilyEnv ρ) :
    ∀ (l1 l2 : List FamilyType) (s : ResultsStore ρ),
      eventsOf env s (l1 ++ l2) =
        eventsOf env s l1 ++ eventsOf env (storeAfter env s l1) l2 := by
  intro l1
  induction l1 with
  | nil => intro l2 s; simp [eventsOf, storeAfter]
  | cons g rest ih =>
    intro l2 s
    rw [List.cons_append]
    simp only [eventsOf, storeAfter]
    rw [ih, List.append_assoc]

theorem anyFamilyFailed_append {ρ : Type} (env : FamilyEnv ρ) :
    ∀ (l1 l2 : List FamilyType) (s : ResultsStore ρ),
      anyFamilyFailed env s (l1 ++ l2) =
        (anyFamilyFailed env s l1 || anyFamilyFailed env (storeAfter env s l1) l2) := by
  intro l1
  induction l1 with
  | nil => intro l2 s; simp [anyFamilyFailed, storeAfter]
  | cons g rest ih =>
    intro l2 s
    rw [List.cons_append]
    simp only [anyFamilyFailed, storeAfter]
    rw [ih, Bool.or_assoc]

theorem getResult_storeStep_self {ρ : Type} (env : FamilyEnv ρ) (s : ResultsStore ρ)
    (ft : FamilyType) (r : ρ) (hnone : s.getResult ft = none) :
    ((storeStep env s ft).getResult ft = some r ↔
      env.familyStartedErr ft = none ∧ env.ctxCancelledWins ft = false ∧
        env.familyRun ft s = Except.ok r) := by
  unfold storeStep
  cases hs : env.familyStartedErr ft with
  | some msg => simp [hs, hnone]
  | none =>
    cases hc : env.ctxCancelledWins ft with
    | true => simp [hs, hc, hnone]
    | false =>
      cases hr : env.familyRun ft s with
      | error e => simp [hs, hc, hr, hnone]
      | ok r2 => simp [hs, hc, hr, getResult_setResults_self]

theorem getResult_storeAfter_iff {ρ : Type} (env : FamilyEnv ρ) {ft : FamilyType} {r : ρ} :
    ∀ (fams : List FamilyType) (s : ResultsStore ρ), fams.Nodup →
      s.getResult ft = none →
      ((storeAfter env s fams).getResult ft = some r ↔
        ∃ pre post, fams = pre ++ ft :: post ∧
          env.familyStartedErr ft = none ∧
          env.ctxCancelledWins ft = false ∧
          env.familyRun ft (storeAfter env s pre) = Except.ok r) := by
  intro fams
  induction fams with
  | nil =>
    intro s _ hnone
    simp only [storeAfter]
    rw [hnone]
    constructor
    · intro h; cases h
    · rintro ⟨pre, post, hpp, -⟩
      exact absurd hpp.symm (by simp)
  | cons g rest ih =>
    intro s hnd hnone
    have hnd2 := List.nodup_cons.1 hnd
    by_cases hg : g = ft
    · subst hg
      rw [show storeAfter env s (g :: rest) = storeAfter env (storeStep env s g) rest from rfl]
      rw [getResult_storeAfter_not_mem env _ hnd2.1]
      rw [getResult_storeStep_self env s g r hnone]
      constructor
      · rintro ⟨h1, h2, h3⟩
        exact ⟨[], rest, rfl, h1, h2, h3⟩
      · rintro ⟨pre, post, hpp, h1, h2, h3⟩
        cases pre with
        | nil =>
          simp only [List.nil_append, List.cons.injEq] at hpp
          refine ⟨h1, h2, ?_⟩
          simpa [storeAfter] using h3
        | cons g2 pre2 =>
          simp only [List.cons_append, List.cons.injEq] at hpp
          exact absurd (hpp.2 ▸ List.mem_append_right pre2 (List.mem_cons_self g post))
            hnd2.1
    · rw [show storeAfter env s (g :: rest) = storeAfter env (storeStep env s g) rest from rfl]
      have hstep : (storeStep env s g).getResult ft = none := by
        rw [getResult_storeStep_ne env s hg]; exact hnone
      rw [ih (storeStep env s g) hnd2.2 hstep]
      constructor
      · rintro ⟨pre, post, hpp, h1, h2, h3⟩
        refine ⟨g :: pre, post, by rw [List.cons_append, hpp], h1, h2, ?_⟩
        simpa [storeAfter] using h3
      · rintro ⟨pre, post, hpp, h1, h2, h3⟩
        cases pre with
        | nil =>
          simp only [List.nil_append, List.cons.injEq] at hpp
          exact absurd hpp.1 hg
        | cons g2 pre2 =>
          simp only [List.cons_append, List.cons.injEq] at hpp
          refine ⟨pre2, post, hpp.2, h1, h2, ?_⟩
          rw [show storeAfter env s (g2 :: pre2) = storeAfter env (storeStep env s g2) pre2
            from rfl] at h3
          rwa [← hpp.1] at h3

/-! ## Claims C1 to C4: the family manager -/



/-- C1 counterexample: with a single enabled family whose FamilyStarted
notification fails, the family is skipped (a failure in the sense of the
claim), yet the returned error list does not contain the generic at least
one family failed error, because the skip path does not set the
oneOrMoreFamilyFailed flag. -/
theorem claim_C1_counterexample :
    (envC1.familyStartedErr FamilyType.SBOM).isSome = true ∧
    FamilyType.SBOM ∈ (Families.New configC1).families ∧
    RunError.atLeastOneFamilyFailed ∉ ((Families.New configC1).Run envC1).errors := by
  decide

/-- C1 (amended): the generic at least one family failed error is in the
returned error list iff some family, after a successful FamilyStarted
notification, was aborted by cancellation or had its Run return an error;
a family skipped because its FamilyStarted notification failed does not by
itself make the generic error appear (its own notification-failure error
is still appended). -/
theorem claim_C1 {ρ : Type} (m : Manager) (env : FamilyEnv ρ) :
    RunError.atLeastOneFamilyFailed ∈ (m.Run env).errors ↔
      anyFamilyFailed env [] m.families = true := by
  rw [managerRun_errors]
  constructor
  · intro h
    rcases List.mem_append.1 h with h | h
    · exact absurd h (atLeastOne_not_mem_errorsOf env m.families)
    · by_cases hf : anyFamilyFailed env [] m.families
      · exact hf
      · simp [hf] at h
  · intro h
    apply List.mem_append_right
    simp [h]

/-- C2: families.New builds exactly the enabled subsequence of the fixed
order SBOM, Vulnerabilities, Secrets, Rootkits, Malware, Misconfiguration,
Exploits (enabled families are never reordered, disabled families are
never added), and Manager.Run attempts the FamilyStarted notifications in
exactly that list order. -/
theorem claim_C2 (c : Config) {ρ : Type} (env : FamilyEnv ρ) :
    (Families.New c).families = fixedFamilyOrder.filter (familyEnabled c) ∧
    startedCalls ((Families.New c).Run env).trace = (Families.New c).families := by
  constructor
  · obtain ⟨⟨s⟩, ⟨v⟩, ⟨se⟩, ⟨r⟩, ⟨mw⟩, ⟨mi⟩, ⟨e⟩⟩ := c
    cases s <;> cases v <;> cases se <;> cases r <;> cases mw <;> cases mi <;> cases e <;> rfl
  · rw [managerRun_trace, startedCalls_eventsOf]

/-- C3: the results store holds a result for a family type iff that family
appears in the list, its FamilyStarted notification succeeded, it was not
aborted by cancellation, and its Run on the results accumulated before it
returned that result with no error; a successful result is stored before
the FamilyFinished notification is invoked (the resultStored event
directly precedes the familyFinishedCall event in the trace); and when the
context is cancelled while family K executes after earlier families all
succeeded, the earlier results are still stored, K contributes nothing,
and the returned error list is non-empty. -/
theorem claim_C3 {ρ : Type} (env : FamilyEnv ρ) (m : Manager)
    (hnd : m.families.Nodup) :
    (∀ (ft : FamilyType) (r : ρ),
        ((m.Run env).store.getResult ft = some r ↔
          ∃ pre post, m.families = pre ++ ft :: post ∧
            env.familyStartedErr ft = none ∧
            env.ctxCancelledWins ft = false ∧
            env.familyRun ft (storeAfter env [] pre) = Except.ok r)) ∧
    (∀ (pre : List FamilyType) (ft : FamilyType) (post : List FamilyType) (r : ρ),
        m.families = pre ++ ft :: post →
        env.familyStartedErr ft = none →
        env.ctxCancelledWins ft = false →
        env.familyRun ft (storeAfter env [] pre) = Except.ok r →
        ∃ t1 t2, (m.Run env).trace =
          t1 ++ [RunEvent.resultStored ft, RunEvent.familyFinishedCall ft] ++ t2) ∧
    (∀ (pre : List FamilyType) (k : FamilyType) (post : List FamilyType),
        m.families = pre ++ k :: post →
        env.familyStartedErr k = none →
        env.ctxCancelledWins k = true →
        (∀ f ∈ pre, env.familyStartedErr f = none ∧ env.ctxCancelledWins f = false ∧
          ∀ s, ∃ r, env.familyRun f s = Except.ok r) →
        (∀ f ∈ pre, ((m.Run env).store.getResult f).isSome = true) ∧
        (m.Run env).store.getResult k = none ∧
        (m.Run env).errors ≠ []) := by
  refine ⟨?_, ?_, ?_⟩
  · intro ft r
    rw [managerRun_store]
    exact getResult_storeAfter_iff env m.families [] hnd rfl
  · intro pre ft post r hdec h1 h2 h3
    rw [managerRun_trace, hdec, eventsOf_append]
    have hfam : famEvents env (storeAfter env [] pre) ft =
        [RunEvent.familyStartedCall ft, RunEvent.familyRunLaunched ft,
         RunEvent.resultStored ft, RunEvent.familyFinishedCall ft] := by
      unfold famEvents
      rw [h1, h2, h3]
      rfl
    refine ⟨eventsOf env [] pre ++
      [RunEvent.familyStartedCall ft, RunEvent.familyRunLaunched ft],
      eventsOf env (storeStep env (storeAfter env [] pre) ft) post, ?_⟩
    rw [show eventsOf env (storeAfter env [] pre) (ft :: post) =
      famEvents env (storeAfter env [] pre) ft ++
        eventsOf env (storeStep env (storeAfter env [] pre) ft) post from rfl]
    rw [hfam]
    simp
  · intro pre k post hdec hsk hck hpre
    have hiff : ∀ (ft : FamilyType) (r : ρ),
        ((m.Run env).store.getResult ft = some r ↔
          ∃ p2 q2, m.families = p2 ++ ft :: q2 ∧
            env.familyStartedErr ft = none ∧
            env.ctxCancelledWins ft = false ∧
            env.familyRun ft (storeAfter env [] p2) = Except.ok r) := by
      intro ft r
      rw [managerRun_store]
      exact getResult_storeAfter_iff env m.families [] hnd rfl
    refine ⟨?_, ?_, ?_⟩
    · intro f hf
      obtain ⟨p1, p2, hp⟩ := List.append_of_mem hf
      obtain ⟨hs1, hs2, hs3⟩ := hpre f hf
      obtain ⟨r, hr⟩ := hs3 (storeAfter env [] p1)
      have hdec2 : m.families = p1 ++ f :: (p2 ++ k :: post) := by
        rw [hdec, hp]; simp
      have := (hiff f r).2 ⟨p1, p2 ++ k :: post, hdec2, hs1, hs2, hr⟩
      rw [this]; rfl
    · cases hk : (m.Run env).store.getResult k with
      | none => rfl
      | some r =>
        obtain ⟨-, -, -, -, hc2, -⟩ := (hiff k r).1 hk
        rw [hck] at hc2
        cases hc2
    · have hmem : RunError.atLeastOneFamilyFailed ∈ (m.Run env).errors := by
        rw [managerRun_errors]
        apply List.mem_append_right
        have hany : anyFamilyFailed env [] m.families = true := by
          rw [hdec, anyFamilyFailed_append]
          have hfk : familyAttemptFailed env (storeAfter env [] pre) k = true := by
            unfold familyAttemptFailed
            rw [hsk, hck]
            rfl
          rw [show anyFamilyFailed env (storeAfter env [] pre) (k :: post) =
            (familyAttemptFailed env (storeAfter env [] pre) k ||
              anyFamilyFailed env (storeStep env (storeAfter env [] pre) k) post)
            from rfl]
          rw [hfk]
          simp
        simp [hany]
      exact List.ne_nil_of_mem hmem


/-- Witness for C3 at a concrete run of SBOM then Secrets with the context
cancelled during Secrets. -/
theorem claim_C3_witness :
    ((((Manager.mk [FamilyType.SBOM, FamilyType.Secrets]).Run envC3).store.getResult
        FamilyType.SBOM).isSome = true) ∧
    (((Manager.mk [FamilyType.SBOM, FamilyType.Secrets]).Run envC3).store.getResult
        FamilyType.Secrets = none) ∧
    ((Manager.mk [FamilyType.SBOM, FamilyType.Secrets]).Run envC3).errors ≠ [] := by
  have h := (claim_C3 envC3 (Manager.mk [FamilyType.SBOM, FamilyType.Secrets])
      (by decide)).2.2
    [FamilyType.SBOM] FamilyType.Secrets [] rfl rfl rfl
    (by
      intro f hf
      simp only [List.mem_singleton] at hf
      subst hf
      exact ⟨rfl, rfl, fun s => ⟨7, rfl⟩⟩)
  exact ⟨h.1 FamilyType.SBOM (by simp), h.2.1, h.2.2⟩

/-- C4: when the FamilyStarted notification fails for a family in the
list, that family Run is never launched, the family started notification
failed error is appended to the returned error list, and every family in
the list still gets its FamilyStarted attempt, in list order. -/
theorem claim_C4 {ρ : Type} (env : FamilyEnv ρ) (m : Manager) (ft : FamilyType)
    (msg : String) (hmem : ft ∈ m.families)
    (hfail : env.familyStartedErr ft = some msg) :
    RunEvent.familyRunLaunched ft ∉ (m.Run env).trace ∧
    RunError.familyStartedNotificationFailed ft msg ∈ (m.Run env).errors ∧
    startedCalls (m.Run env).trace = m.families := by
  refine ⟨?_, ?_, ?_⟩
  · intro h
    rw [managerRun_trace] at h
    have h2 := mem_launchedCalls h
    rw [launchedCalls_eventsOf] at h2
    have h3 := (List.mem_filter.1 h2).2
    rw [hfail] at h3
    simp at h3
  · rw [managerRun_errors]
    apply List.mem_append_left
    apply mem_errorsOf_of_mem env hmem
    unfold famErrors
    rw [hfail]
    simp
  · rw [managerRun_trace, startedCalls_eventsOf]


/-- Witness for C4 at a concrete run of SBOM then Secrets where the SBOM
FamilyStarted notification fails. -/
theorem claim_C4_witness :
    RunEvent.familyRunLaunched FamilyType.SBOM ∉
      ((Manager.mk [FamilyType.SBOM, FamilyType.Secrets]).Run envC4).trace ∧
    RunError.familyStartedNotificationFailed FamilyType.SBOM "boom" ∈
      ((Manager.mk [FamilyType.SBOM, FamilyType.Secrets]).Run envC4).errors ∧
    startedCalls ((Manager.mk [FamilyType.SBOM, FamilyType.Secrets]).Run envC4).trace =
      [FamilyType.SBOM, FamilyType.Secrets] :=
  claim_C4 envC4 (Manager.mk [FamilyType.SBOM, FamilyType.Secrets]) FamilyType.SBOM
    "boom" (by simp) rfl

/-! ## Claim C5: tag-based scope filtering -/

theorem tagMatch_iff (vm : VirtualMachine) (t : Tag) :
    ((match lookupTag vm.tags t.key with
      | some v => v == t.value
      | none => false) = true) ↔ carriesTag vm t := by
  cases h : lookupTag vm.tags t.key <;> simp [h, carriesTag]

theorem carriesTag_nil {t : Tag} {vm : VirtualMachine} (hvm : vm.tags = []) :
    ¬carriesTag vm t := by
  unfold carriesTag
  rw [hvm]
  simp [lookupTag]

/-- C5: hasIncludeTags is true iff the selector is nil or empty or the VM
carries every selector tag; hasExcludeTags is true iff the selector is
non-nil and non-empty and the VM carries every selector tag (so a VM
missing any selector tag, or having no tags at all, is never excluded);
and target discovery emits exactly the VMs passing the inclusion filter
and not caught by the exclusion filter. -/
theorem claim_C5 (vm : VirtualMachine) (tags : Option (List Tag))
    (vms : List VirtualMachine) (scope : AzureScanScope) :
    (hasIncludeTags vm tags = true ↔
      (tags = none ∨ ∃ ts, tags = some ts ∧ (ts = [] ∨ ∀ t ∈ ts, carriesTag vm t))) ∧
    (hasExcludeTags vm tags = true ↔
      (∃ ts, tags = some ts ∧ ts ≠ [] ∧ ∀ t ∈ ts, carriesTag vm t)) ∧
    (processVirtualMachineListIntoTargetTypes vms scope =
      vms.filter fun v =>
        hasIncludeTags v scope.instanceTagSelector &&
          !hasExcludeTags v scope.instanceTagExclusion) ∧
    (vm ∈ processVirtualMachineListIntoTargetTypes vms scope ↔
      (vm ∈ vms ∧ hasIncludeTags vm scope.instanceTagSelector = true ∧
        hasExcludeTags vm scope.instanceTagExclusion = false)) := by
  have hproc : ∀ (l : List VirtualMachine),
      processVirtualMachineListIntoTargetTypes l scope =
        l.filter fun v =>
          hasIncludeTags v scope.instanceTagSelector &&
            !hasExcludeTags v scope.instanceTagExclusion := by
    intro l
    induction l with
    | nil => rfl
    | cons v rest ih =>
      simp only [processVirtualMachineListIntoTargetTypes, List.filter_cons]
      by_cases hi : hasIncludeTags v scope.instanceTagSelector = true
      · by_cases he : hasExcludeTags v scope.instanceTagExclusion = true
        · simp [hi, he, ih]
        · simp only [Bool.not_eq_true] at he
          simp [hi, he, ih]
      · simp only [Bool.not_eq_true] at hi
        simp [hi, ih]
  refine ⟨?_, ?_, hproc vms, ?_⟩
  · cases tags with
    | none => simp [hasIncludeTags]
    | some ts =>
      simp only [hasIncludeTags]
      by_cases hts : ts.length = 0
      · have : ts = [] := List.length_eq_zero.1 hts
        subst this
        simp
      · have htsne : ts ≠ [] := fun h => hts (by rw [h]; rfl)
        by_cases hvm : vm.tags.length = 0
        · have hvmnil : vm.tags = [] := List.length_eq_zero.1 hvm
          rw [if_neg hts, if_pos hvm]
          constructor
          · intro h; cases h
          · rintro (h | ⟨ts2, hts2, h⟩)
            · cases h
            · cases hts2
              rcases h with h | h
              · exact absurd h htsne
              · obtain ⟨t, ht⟩ := List.exists_mem_of_ne_nil ts htsne
                exact absurd (h t ht) (carriesTag_nil hvmnil)
        · simp only [if_neg hts, if_neg hvm]
          rw [List.all_eq_true]
          constructor
          · intro h
            exact Or.inr ⟨ts, rfl, Or.inr fun t ht => (tagMatch_iff vm t).1 (h t ht)⟩
          · rintro (h | ⟨ts2, hts2, h⟩)
            · cases h
            · cases hts2
              rcases h with h | h
              · exact absurd h htsne
              · exact fun t ht => (tagMatch_iff vm t).2 (h t ht)
  · cases tags with
    | none => simp [hasExcludeTags]
    | some ts =>
      simp only [hasExcludeTags]
      by_cases hts : ts.length = 0
      · have : ts = [] := List.length_eq_zero.1 hts
        subst this
        simp
      · have htsne : ts ≠ [] := fun h => hts (by rw [h]; rfl)
        by_cases hvm : vm.tags.length = 0
        · have hvmnil : vm.tags = [] := List.length_eq_zero.1 hvm
          simp only [if_neg hts, if_pos hvm]
          constructor
          · intro h; cases h
          · rintro ⟨ts2, hts2, -, h⟩
            cases hts2
            obtain ⟨t, ht⟩ := List.exists_mem_of_ne_nil ts htsne
            exact absurd (h t ht) (carriesTag_nil hvmnil)
        · simp only [if_neg hts, if_neg hvm]
          rw [List.all_eq_true]
          constructor
          · intro h
            exact ⟨ts, rfl, htsne, fun t ht => (tagMatch_iff vm t).1 (h t ht)⟩
          · rintro ⟨ts2, hts2, -, h⟩
            cases hts2
            exact fun t ht => (tagMatch_iff vm t).2 (h t ht)
  · rw [hproc vms]
    rw [List.mem_filter]
    constructor
    · rintro ⟨h1, h2⟩
      rw [Bool.and_eq_true, Bool.not_eq_true'] at h2
      exact ⟨h1, h2.1, h2.2⟩
    · rintro ⟨h1, h2, h3⟩
      refine ⟨h1, ?_⟩
      rw [Bool.and_eq_true, Bool.not_eq_true']
      exact ⟨h2, h3⟩

/-! ## Claim C6: idempotent scanner VM provisioning -/

/-- C6: when the get call finds the scanner VM, ensureScannerVirtualMachine
either returns it with no error and without issuing any create call (when
its provisioning state is Succeeded), or returns a retryable error
carrying the estimated provision wait, again without creating.  Since no
create was issued and the function is a pure probe of the cloud state, a
second invocation in succession runs against the same state and is the
same outcome: both invocations succeed with no create. -/
theorem claim_C6 (env : ScannerVMEnv) (vm : AzureVM)
    (hget : env.getScannerVM = Except.ok vm) :
    (vm.provisioningState = ProvisioningStateSucceeded →
      ensureScannerVirtualMachine env =
        { vm := vm, err := none, calls := [AzureCall.getCall] } ∧
      AzureCall.beginCreateCall ∉ (ensureScannerVirtualMachine env).calls ∧
      (ensureScannerVirtualMachine env).err = none) ∧
    (vm.provisioningState ≠ ProvisioningStateSucceeded →
      (ensureScannerVirtualMachine env).err =
        some (ProviderError.retryableError VMCreateEstimateProvisionTimeSeconds
          ("VM is not ready yet, provisioning state: " ++ vm.provisioningState)) ∧
      AzureCall.beginCreateCall ∉ (ensureScannerVirtualMachine env).calls) := by
  constructor
  · intro hst
    have he : ensureScannerVirtualMachine env =
        { vm := vm, err := none, calls := [AzureCall.getCall] } := by
      simp only [ensureScannerVirtualMachine, hget]
      rw [if_neg (by simp [hst])]
    exact ⟨he, by simp [he], by simp [he]⟩
  · intro hst
    have he : ensureScannerVirtualMachine env =
        { vm := vm,
          err := some (ProviderError.retryableError VMCreateEstimateProvisionTimeSeconds
            ("VM is not ready yet, provisioning state: " ++ vm.provisioningState)),
          calls := [AzureCall.getCall] } := by
      simp only [ensureScannerVirtualMachine, hget]
      rw [if_pos hst]
    exact ⟨by simp [he], by simp [he]⟩


/-- Witness for C6: on an already-provisioned VM the call returns the VM
with no error and no create call. -/
theorem claim_C6_witness :
    ensureScannerVirtualMachine envC6 =
      { vm := { name := "vmclarity-scanner-1", provisioningState := "Succeeded" },
        err := none, calls := [AzureCall.getCall] } ∧
    AzureCall.beginCreateCall ∉ (ensureScannerVirtualMachine envC6).calls ∧
    (ensureScannerVirtualMachine envC6).err = none :=
  (claim_C6 envC6 { name := "vmclarity-scanner-1", provisioningState := "Succeeded" }
    rfl).1 rfl

/-! ## Claim C7: fatal instance-id parsing stops the pipeline -/

/-- C7: resourceGroupAndNameFromInstanceID returns parts four and eight of
the slash-split instance id exactly when the split has nine parts, and a
fatal (non-retryable) error otherwise; and when parsing fails after the VM
info was obtained, RunTargetScan returns that fatal error with no pipeline
step attempted. -/
theorem claim_C7 (s : String) (env : RunScanEnv) (info : VMInfoData) :
    ((splitOnSlash s).length = instanceIDPartsLength →
      resourceGroupAndNameFromInstanceID s =
        Except.ok ((splitOnSlash s).getD resourceGroupPartIdx "",
          (splitOnSlash s).getD vmNamePartIdx "")) ∧
    ((splitOnSlash s).length ≠ instanceIDPartsLength →
      ∃ msg, resourceGroupAndNameFromInstanceID s =
        Except.error (ProviderError.fatalError msg)) ∧
    (env.asVMInfo = Except.ok info →
      (splitOnSlash info.instanceID).length ≠ instanceIDPartsLength →
      ∃ msg, RunTargetScan env =
        { err := some (ProviderError.fatalError msg), steps := [] }) := by
  refine ⟨?_, ?_, ?_⟩
  · intro h
    unfold resourceGroupAndNameFromInstanceID
    rw [dif_pos h]
    have h4 : resourceGroupPartIdx < (splitOnSlash s).length := by rw [h]; decide
    have h8 : vmNamePartIdx < (splitOnSlash s).length := by rw [h]; decide
    rw [List.getD_eq_getElem _ _ h4, List.getD_eq_getElem _ _ h8]
    simp [List.get_eq_getElem]
  · intro h
    unfold resourceGroupAndNameFromInstanceID
    rw [dif_neg h]
    exact ⟨_, rfl⟩
  · intro hinfo hlen
    have hp : resourceGroupAndNameFromInstanceID info.instanceID =
        Except.error (ProviderError.fatalError
          ("asset instance id in unexpected format got: " ++
            toString (splitOnSlash info.instanceID))) := by
      unfold resourceGroupAndNameFromInstanceID
      rw [dif_neg hlen]
    simp only [RunTargetScan, hinfo, hp]
    exact ⟨_, rfl⟩


/-- Witness for C7: a malformed instance id makes RunTargetScan stop with
no pipeline step attempted and a fatal error returned. -/
theorem claim_C7_witness :
    (RunTargetScan envC7).steps = [] ∧
    (RunTargetScan envC7).err = some (ProviderError.fatalError
      ("asset instance id in unexpected format got: " ++
        toString (splitOnSlash "bad-id"))) := by
  obtain ⟨msg, h⟩ :=
    (claim_C7 "bad-id" envC7 { instanceID := "bad-id" }).2.2 rfl (by decide)
  exact ⟨by rw [h], rfl⟩

/-! ## Claim C8: teardown order and short-circuit -/

/-- C8: RemoveTargetScan attempts the teardown steps in exactly the order
delete scanner VM, delete network interface, delete target disk, delete
snapshot-copy blob, delete snapshot; it returns nil iff all five steps
succeed, and the first failing step makes it return that error immediately
with no later step attempted. -/
theorem claim_C8 (env : RemoveEnv) :
    ((RemoveTargetScan env).err = none ↔
      env.vmDeleteErr = none ∧ env.nicDeleteErr = none ∧ env.diskDeleteErr = none ∧
        env.blobDeleteErr = none ∧ env.snapshotDeleteErr = none) ∧
    ((RemoveTargetScan env).err = none →
      (RemoveTargetScan env).steps = [RemoveStep.deleteScannerVM, RemoveStep.deleteNIC,
        RemoveStep.deleteTargetDisk, RemoveStep.deleteBlob, RemoveStep.deleteSnapshot]) ∧
    (∀ e, env.vmDeleteErr = some e →
      RemoveTargetScan env =
        { err := some ("failed to ensure scanner virtual machine deleted", e),
          steps := [RemoveStep.deleteScannerVM] }) ∧
    (∀ e, env.vmDeleteErr = none → env.nicDeleteErr = some e →
      RemoveTargetScan env =
        { err := some ("failed to ensure network interface deleted", e),
          steps := [RemoveStep.deleteScannerVM, RemoveStep.deleteNIC] }) ∧
    (∀ e, env.vmDeleteErr = none → env.nicDeleteErr = none → env.diskDeleteErr = some e →
      RemoveTargetScan env =
        { err := some ("failed to ensure target disk deleted", e),
          steps := [RemoveStep.deleteScannerVM, RemoveStep.deleteNIC,
            RemoveStep.deleteTargetDisk] }) ∧
    (∀ e, env.vmDeleteErr = none → env.nicDeleteErr = none → env.diskDeleteErr = none →
      env.blobDeleteErr = some e →
      RemoveTargetScan env =
        { err := some ("failed to ensure snapshot copy blob deleted", e),
          steps := [RemoveStep.deleteScannerVM, RemoveStep.deleteNIC,
            RemoveStep.deleteTargetDisk, RemoveStep.deleteBlob] }) ∧
    (∀ e, env.vmDeleteErr = none → env.nicDeleteErr = none → env.diskDeleteErr = none →
      env.blobDeleteErr = none → env.snapshotDeleteErr = some e →
      RemoveTargetScan env =
        { err := some ("failed to ensure snapshot deleted", e),
          steps := [RemoveStep.deleteScannerVM, RemoveStep.deleteNIC,
            RemoveStep.deleteTargetDisk, RemoveStep.deleteBlob,
            RemoveStep.deleteSnapshot] }) := by
  rcases env with ⟨v, n, d, bl, sn⟩
  cases v <;> cases n <;> cases d <;> cases bl <;> cases sn <;>
    simp [RemoveTargetScan]


/-- Witness for C8: a network-interface delete failure stops the teardown
after the first two steps. -/
theorem claim_C8_witness :
    RemoveTargetScan envC8 =
      { err := some ("failed to ensure network interface deleted", "nic delete rejected"),
        steps := [RemoveStep.deleteScannerVM, RemoveStep.deleteNIC] } :=
  (claim_C8 envC8).2.2.2.1 "nic delete rejected" rfl rfl

/-! ## Claim C9: CreateScanResult validation, creation and conflicts -/

/-- C9: CreateScanResult rejects a caller-provided Id, a Scan with empty
id or a Target with empty id with a BadRequestError and leaves the stored
documents unchanged; whenever it reports created, the returned record
carries the freshly generated UUID as id and revision 1 and is exactly the
one appended to the store; and when a different record with the same
target id and scan id already exists, it returns the first such record
with a ConflictError and inserts nothing. -/
theorem claim_C9 (db : List TargetScanResult) (freshId : String)
    (sr : TargetScanResult) :
    ((sr.id ≠ none ∨ (∃ s0, sr.scan = some s0 ∧ s0.id = "") ∨
        (∃ t0, sr.target = some t0 ∧ t0.id = "")) →
      ∃ reason, CreateScanResult db freshId sr = (CreateResult.badRequest reason, db)) ∧
    (∀ out db2, CreateScanResult db freshId sr = (CreateResult.created out, db2) →
      out.id = some freshId ∧ out.revision = some 1 ∧ db2 = db ++ [out]) ∧
    (∀ t0 s0, sr.id = none → sr.target = some t0 → sr.scan = some s0 →
      t0.id ≠ "" → s0.id ≠ "" →
      (∃ r, r ∈ db ∧ ¬(r.id = some freshId) ∧
        (r.target.map fun x => x.id) = some t0.id ∧
        (r.scan.map fun x => x.id) = some s0.id) →
      ∃ r0 reason,
        CreateScanResult db freshId sr = (CreateResult.conflict r0 reason, db) ∧
        r0 ∈ db ∧ (r0.target.map fun x => x.id) = some t0.id ∧
        (r0.scan.map fun x => x.id) = some s0.id) := by
  refine ⟨?_, ?_, ?_⟩
  · intro h
    unfold CreateScanResult
    split
    · exact ⟨_, rfl⟩
    split
    · exact ⟨_, rfl⟩
    split
    · exact ⟨_, rfl⟩
    case isFalse c1 c2 c3 =>
      exfalso
      rcases h with h | ⟨s0, hs, hsid⟩ | ⟨t0, ht, htid⟩
      · rcases ho : sr.id with _ | v
        · exact h ho
        · exact c3 (by rw [ho]; rfl)
      · exact c1 (by rw [hs]; simp [hsid])
      · exact c2 (by rw [ht]; simp [htid])
  · intro out db2 h
    unfold CreateScanResult at h
    split at h
    · simp at h
    split at h
    · simp at h
    split at h
    · simp at h
    simp only [] at h
    split at h
    · simp at h
    · simp at h
    · rw [Prod.mk.injEq, CreateResult.created.injEq] at h
      rw [← h.1]
      exact ⟨rfl, rfl, h.2.symm⟩
  · intro t0 s0 hid ht hs htid hsid hex
    obtain ⟨r, hrdb, hrid, hrt, hrs⟩ := hex
    have hc1 : ¬((match sr.scan with
        | some s0 => s0.id == ""
        | none => false) = true) := by
      rw [hs]
      simp [hsid]
    have hc2 : ¬((match sr.target with
        | some t0 => t0.id == ""
        | none => false) = true) := by
      rw [ht]
      simp [htid]
    have hc3 : ¬(sr.id.isSome = true) := by rw [hid]; simp
    have hpred : (fun rr =>
        !(rr.id == some freshId) &&
          ((rr.target.map fun x => x.id) == some t0.id) &&
          ((rr.scan.map fun x => x.id) == some s0.id)) r = true := by
      simp only [Bool.and_eq_true, Bool.not_eq_true', beq_eq_false_iff_ne, beq_iff_eq]
      exact ⟨⟨hrid, hrt⟩, hrs⟩
    have hne : db.filter (fun rr =>
        !(rr.id == some freshId) &&
          ((rr.target.map fun x => x.id) == some t0.id) &&
          ((rr.scan.map fun x => x.id) == some s0.id)) ≠ [] :=
      List.ne_nil_of_mem (List.mem_filter.2 ⟨hrdb, hpred⟩)
    rcases hfil : db.filter (fun rr =>
        !(rr.id == some freshId) &&
          ((rr.target.map fun x => x.id) == some t0.id) &&
          ((rr.scan.map fun x => x.id) == some s0.id)) with _ | ⟨r0, rest⟩
    · exact absurd hfil hne
    have hr0 : r0 ∈ db ∧ ((fun rr =>
        !(rr.id == some freshId) &&
          ((rr.target.map fun x => x.id) == some t0.id) &&
          ((rr.scan.map fun x => x.id) == some s0.id)) r0 = true) :=
      List.mem_filter.1 (hfil ▸ List.mem_cons_self r0 rest)
    have hcu : checkUniqueness db
        { sr with id := some freshId, revision := some 1 } =
        CheckOutcome.conflictFound r0 := by
      unfold checkUniqueness
      rcases sr with ⟨i, rev, sc, tg, pl⟩
      simp only at ht hs
      subst ht
      subst hs
      simp only
      rw [hfil]
    refine ⟨r0, "Scan results exists with same target id and scan id", ?_, hr0.1, ?_, ?_⟩
    · unfold CreateScanResult
      rw [if_neg hc1, if_neg hc2, if_neg hc3]
      simp only []
      rw [hcu]
    · have h2 := hr0.2
      simp only [Bool.and_eq_true, beq_iff_eq] at h2
      exact h2.1.2
    · have h2 := hr0.2
      simp only [Bool.and_eq_true, beq_iff_eq] at h2
      exact h2.2

/-- Witness for C9 on a concrete success path: creating a valid scan
result in an empty store yields a record with the fresh UUID and
revision 1, appended to the store. -/
theorem claim_C9_witness :
    (TargetScanResult.mk (some "uuid-1") (some 1) (some ⟨"scan-1"⟩) (some ⟨"target-1"⟩)
      "payload").id = some "uuid-1" ∧
    (TargetScanResult.mk (some "uuid-1") (some 1) (some ⟨"scan-1"⟩) (some ⟨"target-1"⟩)
      "payload").revision = some 1 ∧
    ([TargetScanResult.mk (some "uuid-1") (some 1) (some ⟨"scan-1"⟩) (some ⟨"target-1"⟩)
      "payload"] : List TargetScanResult) =
      [] ++ [TargetScanResult.mk (some "uuid-1") (some 1) (some ⟨"scan-1"⟩)
        (some ⟨"target-1"⟩) "payload"] :=
  (claim_C9 [] "uuid-1"
      (TargetScanResult.mk none none (some ⟨"scan-1"⟩) (some ⟨"target-1"⟩) "payload")).2.1
    (TargetScanResult.mk (some "uuid-1") (some 1) (some ⟨"scan-1"⟩) (some ⟨"target-1"⟩)
      "payload")
    [TargetScanResult.mk (some "uuid-1") (some 1) (some ⟨"scan-1"⟩) (some ⟨"target-1"⟩)
      "payload"]
    (by decide)

/-! ## Claim C10: revision checking and bumping -/

/-- C10 evaluation: when an If-Match value is supplied and the stored
revision is nil, the guard fires but building the PreconditionFailedError
reason dereferences the nil revision pointer, so the code panics instead
of returning the error; the remaining behaviour matches the claim: no
If-Match means no check, equal revisions pass, and bumpRevision increments
a non-nil revision and starts at 1 for a nil one. -/
theorem claim_C10 :
    checkRevisionEtag (some 1) none = RevisionCheck.panicNilRevision ∧
    (∀ revision : Option Int, checkRevisionEtag none revision = RevisionCheck.ok) ∧
    (∀ v : Int, checkRevisionEtag (some v) (some v) = RevisionCheck.ok) ∧
    (∀ r : Int, bumpRevision (some r) = some (r + 1)) ∧
    bumpRevision none = some 1 := by
  refine ⟨rfl, fun revision => rfl, fun v => ?_, fun r => rfl, rfl⟩
  simp [checkRevisionEtag]
